import Mathlib

/-!
Shallow embedding of `src/server.js` (dongguaTV): the TTL cache manager
(`CacheManager.get` / `CacheManager.set`), the SSE streaming search
aggregator (`GET /api/search`), the single-source POST search, the detail
resolvers (`GET`/`POST /api/detail`), the TMDB image cache handler
(`GET /api/tmdb-image/:size/:filename`) and the eviction sweep
(`cleanCacheIfNeeded`).

Machine conventions: timestamps (`Date.now()` and `mtime.getTime()`) are
naturals counted in milliseconds; byte sizes are naturals; JS objects that
the handlers store or return are modelled by explicit record types, with
JS field absence modelled by `Option`.
-/

/-! ## Cache abstraction (`class CacheManager`, src/server.js lines 57-111)

`this.type` is a plain string (`'json'`, `'sqlite'`, `'memory'`, `'none'`),
so the backend selector is modelled as a `String`.  A stored entry is the
object `{ value, expire }` built by `set`.  The JS `get` returns, depending
on the backend, either the raw stored item (memory branch: `return
this.searchCache[key]`) or the unwrapped `data.value` (json branch); the
two result shapes are distinguished by `CacheGetResult`. -/

structure CacheItem (α : Type) where
  value : α
  expire : Nat
  deriving DecidableEq

structure CacheState (α : Type) where
  searchCache : String → Option (CacheItem α)
  detailCache : String → Option (CacheItem α)

/-- Shape of the value a `CacheManager.get` call hands back to its caller:
the memory branch returns the whole stored item (`wrapped`), the json
branch returns `data.value` (`plain`). -/
inductive CacheGetResult (α : Type) where
  | wrapped (item : CacheItem α)
  | plain (v : α)
  deriving DecidableEq

/-- `category === 'search' ? this.searchCache[key] : this.detailCache[key]`. -/
def CacheState.lookup {α : Type} (s : CacheState α) (category key : String) :
    Option (CacheItem α) :=
  if category = "search" then s.searchCache key else s.detailCache key

/-- `CacheManager.get(category, key)` (src/server.js lines 79-88), with the
current `Date.now()` passed in explicitly as `now`. -/
def CacheManager.get {α : Type} (ctype : String) (s : CacheState α)
    (category key : String) (now : Nat) : Option (CacheGetResult α) :=
  if ctype = "memory" then
    (s.lookup category key).map .wrapped
  else if ctype = "json" then
    match s.lookup category key with
    | some data => if data.expire > now then some (.plain data.value) else none
    | none => none
  else none

/-- `CacheManager.set(category, key, value, ttlSeconds)` (src/server.js
lines 90-101); `expire = Date.now() + ttlSeconds * 1000`. -/
def CacheManager.set {α : Type} (ctype : String) (s : CacheState α)
    (category key : String) (value : α) (ttlSeconds : Nat) (now : Nat) :
    CacheState α :=
  let item : CacheItem α := ⟨value, now + ttlSeconds * 1000⟩
  if ctype = "memory" ∨ ctype = "json" then
    if category = "search" then
      { s with searchCache := fun k => if k = key then some item else s.searchCache k }
    else
      { s with detailCache := fun k => if k = key then some item else s.detailCache k }
  else s

/-! ## Data model for search / detail handlers -/

/-- One entry of `db.json`'s `sites` array. -/
structure Site where
  key : String
  name : String
  api : String
  deriving DecidableEq

/-- One element of an upstream `{list: [...]}` response. -/
structure RawItem where
  vod_id : String
  vod_name : String
  vod_pic : String
  vod_remarks : String
  vod_year : String
  type_name : String
  vod_content : String
  vod_play_from : String
  vod_play_url : String
  deriving DecidableEq

/-- A mapped search-result item as the handlers build it.  The streaming
GET path fills every field; the POST path omits the content/playback and
site fields (modelled by `none`). -/
structure Item where
  vod_id : String
  vod_name : String
  vod_pic : String
  vod_remarks : String
  vod_year : String
  type_name : String
  vod_content : Option String
  vod_play_from : Option String
  vod_play_url : Option String
  site_key : Option String
  site_name : Option String
  deriving DecidableEq

/-- The JSON payloads this server stores in the cache: search entries are
objects with a `list` field, detail entries are a raw upstream item cached
verbatim. -/
inductive CVal where
  | searchVal (list : List Item)
  | detailVal (d : RawItem)
  deriving DecidableEq

def emptyCache : CacheState CVal := ⟨fun _ => none, fun _ => none⟩

/-! ## C1 — TTL semantics of the cache backends

The json branch of `get` checks `data.expire > Date.now()` and unwraps
`data.value`; the memory branch (line 81) returns `this.searchCache[key]`
raw: it neither checks `expire` nor unwraps `.value`, so an expired entry
is still returned, and a fresh `get` returns the `{value, expire}` wrapper
rather than the stored value. -/

/-- C1: counter-evidence on the memory backend.  After `set('search','k',
{list:[]},600)` at t=0, a `get` at t=10000000 (far past `expire =
600000`) still returns the stored item instead of a miss, and a `get` at
t=1000 (before expiry) returns the `{value, expire}` wrapper, not the
stored value unchanged. -/
theorem cacheManager_memory_backend_ttl_violation :
    CacheManager.get "memory"
        (CacheManager.set "memory" emptyCache "search" "k" (CVal.searchVal []) 600 0)
        "search" "k" 10000000 =
      some (.wrapped ⟨CVal.searchVal [], 600000⟩) ∧
    CacheManager.get "memory"
        (CacheManager.set "memory" emptyCache "search" "k" (CVal.searchVal []) 600 0)
        "search" "k" 1000 ≠ some (.plain (CVal.searchVal [])) := by
  constructor <;> decide

/-! ## Streaming search aggregator (`GET /api/search`, src/server.js lines 206-288)

Each site's branch of `sites.map(async site => ...)` performs its cache
lookup synchronously against the initial cache state (the lookup precedes
the first `await` in the callback), then either emits the cached list or
fetches upstream.  The upstream interaction of one branch is summed up by
a `FetchOutcome`: `success dataList` stands for a 2xx response whose body
is `{list: ...}` (`dataList = none` when the `list` field is absent),
`failure` for a timeout / transport error / thrown error.  Events written
to the SSE response are collected into a list; the `done` frame is written
after `Promise.all` settles, hence after every branch's data frames. -/

inductive FetchOutcome where
  | success (dataList : Option (List RawItem))
  | failure
  deriving DecidableEq

/-- `const cacheKey = `${site.key}_${keyword}`` (line 230). -/
def streamSearchCacheKey (site : Site) (keyword : String) : String :=
  site.key ++ "_" ++ keyword

/-- `const cacheKey = `${siteKey}_${keyword}`` in the POST handler (line 298). -/
def postSearchCacheKey (siteKey keyword : String) : String :=
  siteKey ++ "_" ++ keyword

/-- The streaming path's item mapping (lines 254-266): every upstream field
is kept and `site_key` / `site_name` are added. -/
def mapStreamItem (site : Site) (item : RawItem) : Item :=
  ⟨item.vod_id, item.vod_name, item.vod_pic, item.vod_remarks, item.vod_year,
   item.type_name, some item.vod_content, some item.vod_play_from,
   some item.vod_play_url, some site.key, some site.name⟩

/-- The POST path's reduced item mapping (lines 315-322): only the six base
fields; content, playback and site fields are omitted. -/
def mapPostItem (item : RawItem) : Item :=
  ⟨item.vod_id, item.vod_name, item.vod_pic, item.vod_remarks, item.vod_year,
   item.type_name, none, none, none, none, none⟩

/-- `{...item, site_key: site.key, site_name: site.name}` (lines 235-239). -/
def decorate (site : Site) (item : Item) : Item :=
  { item with site_key := some site.key, site_name := some site.name }

/-- `data.list ? data.list.map(item => ({...})) : []` in the streaming path
(lines 254-266).  An empty upstream array is truthy in JS, so it also goes
through the map and yields `[]`. -/
def streamMappedList (site : Site) (dataList : Option (List RawItem)) : List Item :=
  match dataList with
  | some dl => dl.map (mapStreamItem site)
  | none => []

/-- `data.list ? data.list.map(item => ({...})) : []` in the POST path
(lines 315-322). -/
def postMappedList (dataList : Option (List RawItem)) : List Item :=
  match dataList with
  | some dl => dl.map mapPostItem
  | none => []

/-- JS truthiness of `cached && cached.list` (line 233): the lookup result
must be a bare object carrying a `list` field.  A memory-backend `wrapped`
item has no `list` field (`undefined`, falsy), and neither does a cached
detail record; an empty array is truthy, so `some []` is a hit. -/
def cachedList : Option (CacheGetResult CVal) → Option (List Item)
  | some (.plain (.searchVal l)) => some l
  | _ => none

/-- Everything one branch of the aggregator does (lines 229-280): whether
`axios.get(site.api, ...)` was invoked, the `cacheManager.set` it issued
(key, value, ttlSeconds), the data frames it wrote, the cache state after
its write, and the list the async callback resolves with. -/
structure BranchResult where
  upstreamCalled : Bool
  cacheWrite : Option (String × CVal × Nat)
  events : List (List Item)
  newCache : CacheState CVal
  retVal : List Item

def searchBranch (ctype : String) (cache : CacheState CVal) (now : Nat)
    (keyword : String) (site : Site) (outcome : FetchOutcome) : BranchResult :=
  let cacheKey := streamSearchCacheKey site keyword
  let cached := CacheManager.get ctype cache "search" cacheKey now
  match cachedList cached with
  | some clist =>
      let items := clist.map (decorate site)
      { upstreamCalled := false, cacheWrite := none,
        events := if items.length > 0 then [items] else [],
        newCache := cache, retVal := items }
  | none =>
      match outcome with
      | .success dataList =>
          let list := streamMappedList site dataList
          { upstreamCalled := true,
            cacheWrite := some (cacheKey, CVal.searchVal list, 600),
            events := if list.length > 0 then [list] else [],
            newCache := CacheManager.set ctype cache "search" cacheKey
              (CVal.searchVal list) 600 now,
            retVal := list }
      | .failure =>
          { upstreamCalled := true, cacheWrite := none, events := [],
            newCache := cache, retVal := [] }

inductive SSEEvent where
  | data (items : List Item)
  | done
  deriving DecidableEq

def SSEEvent.isData : SSEEvent → Bool
  | .data _ => true
  | .done => false

def SSEEvent.isDone : SSEEvent → Bool
  | .data _ => false
  | .done => true

/-- The full stream of SSE frames of one search run: every branch's data
frames (real interleaving across branches depends on upstream latencies
and is not fixed by the code; this serialization keeps each branch's
frames and puts the `done` frame written after `Promise.all` last, which
is the one ordering fact the code guarantees). -/
def streamSearchRun (ctype : String) (cache : CacheState CVal) (now : Nat)
    (keyword : String) (sites : List Site) (outcomes : Site → FetchOutcome) :
    List SSEEvent :=
  (sites.map fun s =>
      (searchBranch ctype cache now keyword s (outcomes s)).events.map SSEEvent.data).flatten
    ++ [SSEEvent.done]

/-- Responses of the GET /api/search handler: `badRequest` is
`res.status(400).json(...)`; `okJson` is a bare `res.json({error})`, which
Express sends with the default status 200; `sse` is the event stream. -/
inductive SearchResponse where
  | badRequest (error : String)
  | okJson (error : String)
  | sse (events : List SSEEvent)
  deriving DecidableEq

def SearchResponse.isClientError : SearchResponse → Bool
  | .badRequest _ => true
  | _ => false

structure GetSearchResult where
  response : SearchResponse
  searchCacheReads : List String
  upstreamCalls : List String

/-- `GET /api/search` (lines 207-288).  `wd` and `streamParam` are the raw
query parameters (`none` when absent).  `if (!keyword)` fires on a missing
or empty string (the only falsy strings in JS); the non-stream branch
returns plain `res.json(...)` before any per-source work.
`searchCacheReads` lists the search-cache keys looked up and
`upstreamCalls` the keys of sites actually fetched. -/
def getSearchHandler (ctype : String) (cache : CacheState CVal) (now : Nat)
    (wd : Option String) (streamParam : Option String) (sites : List Site)
    (outcomes : Site → FetchOutcome) : GetSearchResult :=
  if wd = none ∨ wd = some "" then
    ⟨.badRequest "Missing keyword", [], []⟩
  else
    let keyword := wd.getD ""
    if ¬ streamParam = some "true" then
      ⟨.okJson "Use stream=true for GET requests", [], []⟩
    else
      ⟨.sse (streamSearchRun ctype cache now keyword sites outcomes),
       sites.map (fun s => streamSearchCacheKey s keyword),
       (sites.filter (fun s =>
          (searchBranch ctype cache now keyword s (outcomes s)).upstreamCalled)).map (·.key)⟩

/-! ## Single-source POST search (`POST /api/search`, lines 290-331) -/

inductive PostSearchResponse where
  | siteNotFound
  | cachedVal (v : CacheGetResult CVal)
  | okList (list : List Item)
  | searchFailed
  deriving DecidableEq

structure PostSearchResult where
  response : PostSearchResponse
  newCache : CacheState CVal
  upstreamCalled : Bool

def postSearchHandler (ctype : String) (cache : CacheState CVal) (now : Nat)
    (keyword siteKey : String) (sites : List Site) (outcome : FetchOutcome) :
    PostSearchResult :=
  match sites.find? (fun s => s.key = siteKey) with
  | none => ⟨.siteNotFound, cache, false⟩
  | some _site =>
    let cacheKey := postSearchCacheKey siteKey keyword
    match CacheManager.get ctype cache "search" cacheKey now with
    | some cached => ⟨.cachedVal cached, cache, false⟩
    | none =>
      match outcome with
      | .success dataList =>
          let result := postMappedList dataList
          ⟨.okList result,
           CacheManager.set ctype cache "search" cacheKey (CVal.searchVal result) 600 now,
           true⟩
      | .failure => ⟨.searchFailed, cache, true⟩

/-! ## Concrete fixtures used by witnesses -/

def siteA : Site := ⟨"siteA", "Site A", "http://a.example/api.php"⟩

def siteB : Site := ⟨"siteB", "Site B", "http://b.example/api.php"⟩

def rawX : RawItem := ⟨"1", "X", "pic", "HD", "2020", "movie", "plot", "m3u8", "ep1$u1"⟩

/-! ## Shared helper lemmas -/

/-- A freshly `set` json-backend entry is returned (unwrapped) by `get` on
the same category and key while unexpired. -/
theorem CacheManager.get_set_json {α : Type} (cache : CacheState α)
    (category key : String) (v : α) (ttl now now2 : Nat)
    (h2 : now2 < now + ttl * 1000) :
    CacheManager.get "json" (CacheManager.set "json" cache category key v ttl now)
        category key now2 = some (.plain v) := by
  unfold CacheManager.get CacheManager.set CacheState.lookup
  by_cases hc : category = "search" <;> simp [hc, h2]

/-- Each branch of the aggregator writes either no data frame or exactly
one, and a written frame carries a non-empty list. -/
theorem searchBranch_events_shape (ctype : String) (cache : CacheState CVal)
    (now : Nat) (keyword : String) (site : Site) (outcome : FetchOutcome) :
    (searchBranch ctype cache now keyword site outcome).events = [] ∨
    ∃ l, l ≠ [] ∧ (searchBranch ctype cache now keyword site outcome).events = [l] := by
  unfold searchBranch
  dsimp only
  split
  · split
    · next h => exact Or.inr ⟨_, List.length_pos.mp h, rfl⟩
    · exact Or.inl rfl
  · split
    · dsimp only
      split
      · next h => exact Or.inr ⟨_, List.length_pos.mp h, rfl⟩
      · exact Or.inl rfl
    · exact Or.inl rfl

/-- A branch that reached the upstream call and failed writes no frame. -/
theorem searchBranch_failure_no_event (ctype : String) (cache : CacheState CVal)
    (now : Nat) (keyword : String) (site : Site)
    (h : (searchBranch ctype cache now keyword site .failure).upstreamCalled = true) :
    (searchBranch ctype cache now keyword site .failure).events = [] := by
  unfold searchBranch at *
  dsimp only at *
  split at h
  · simp at h
  · rfl

theorem flatten_length_le {β γ : Type} (f : β → List γ) (l : List β)
    (h : ∀ x ∈ l, (f x).length ≤ 1) : ((l.map f).flatten).length ≤ l.length := by
  induction l with
  | nil => simp
  | cons a t ih =>
    simp only [List.map_cons, List.flatten_cons, List.length_append, List.length_cons]
    have ha := h a (by simp)
    have ht := ih (fun x hx => h x (by simp [hx]))
    omega

theorem streamRun_members_are_data (ctype : String) (cache : CacheState CVal)
    (now : Nat) (keyword : String) (sites : List Site)
    (outcomes : Site → FetchOutcome) :
    ∀ e ∈ (sites.map fun s =>
        (searchBranch ctype cache now keyword s (outcomes s)).events.map SSEEvent.data).flatten,
      e.isData = true := by
  intro e he
  rw [List.mem_flatten] at he
  obtain ⟨l', hl', hel⟩ := he
  rw [List.mem_map] at hl'
  obtain ⟨s, _, rfl⟩ := hl'
  rw [List.mem_map] at hel
  obtain ⟨it, _, rfl⟩ := hel
  rfl

/-- C2: for any set of sites and any per-source outcomes, a streaming
search run emits at most `sites.length` data frames, each branch writes at
most one frame and only for a non-empty list, the `done` frame occurs
exactly once and is the last frame (i.e. after every branch's frames), and
a branch whose upstream fetch failed contributes no data frame. -/
theorem streamSearch_terminal_and_event_bounds (ctype : String)
    (cache : CacheState CVal) (now : Nat) (keyword : String) (sites : List Site)
    (outcomes : Site → FetchOutcome) :
    (streamSearchRun ctype cache now keyword sites outcomes).countP SSEEvent.isData
        ≤ sites.length ∧
    (streamSearchRun ctype cache now keyword sites outcomes).countP SSEEvent.isDone = 1 ∧
    (streamSearchRun ctype cache now keyword sites outcomes).getLast? = some SSEEvent.done ∧
    (∀ s ∈ sites,
      (searchBranch ctype cache now keyword s (outcomes s)).events.length ≤ 1) ∧
    (∀ s ∈ sites, ∀ ev ∈ (searchBranch ctype cache now keyword s (outcomes s)).events,
      ev ≠ []) ∧
    (∀ s ∈ sites, outcomes s = .failure →
      (searchBranch ctype cache now keyword s (outcomes s)).upstreamCalled = true →
      (searchBranch ctype cache now keyword s (outcomes s)).events = []) := by
  have hlen1 : ∀ s ∈ sites,
      (searchBranch ctype cache now keyword s (outcomes s)).events.length ≤ 1 := by
    intro s _
    rcases searchBranch_events_shape ctype cache now keyword s (outcomes s) with h | ⟨l, _, h⟩ <;>
      simp [h]
  refine ⟨?_, ?_, ?_, hlen1, ?_, ?_⟩
  · unfold streamSearchRun
    rw [List.countP_append]
    have h1 : (List.countP SSEEvent.isData [SSEEvent.done]) = 0 := rfl
    rw [h1, Nat.add_zero]
    calc (List.countP SSEEvent.isData
            ((sites.map fun s =>
              (searchBranch ctype cache now keyword s (outcomes s)).events.map SSEEvent.data).flatten))
        ≤ ((sites.map fun s =>
              (searchBranch ctype cache now keyword s (outcomes s)).events.map SSEEvent.data).flatten).length :=
          List.countP_le_length _
      _ ≤ sites.length := by
          apply flatten_length_le
          intro s hs
          simpa using hlen1 s hs
  · unfold streamSearchRun
    rw [List.countP_append]
    have h0 : (List.countP SSEEvent.isDone
        ((sites.map fun s =>
          (searchBranch ctype cache now keyword s (outcomes s)).events.map SSEEvent.data).flatten)) = 0 := by
      rw [List.countP_eq_zero]
      intro e he
      have := streamRun_members_are_data ctype cache now keyword sites outcomes e he
      cases e with
      | data _ => simp [SSEEvent.isDone]
      | done => simp [SSEEvent.isData] at this
    rw [h0]
    rfl
  · exact List.getLast?_concat _
  · intro s _ ev hev
    rcases searchBranch_events_shape ctype cache now keyword s (outcomes s) with h | ⟨l, hl, h⟩
    · rw [h] at hev; simp at hev
    · rw [h] at hev
      simp only [List.mem_singleton] at hev
      exact hev ▸ hl
  · intro s _ hfail hup
    rw [hfail] at hup ⊢
    exact searchBranch_failure_no_event ctype cache now keyword s hup

/-- C2 witness: siteA succeeds with one item, siteB fails; the terminal
frame is still last and siteB contributes no data frame. -/
theorem streamSearch_terminal_and_event_bounds_witness :
    (streamSearchRun "json" emptyCache 0 "test" [siteA, siteB]
        (fun s => if s.key = "siteA" then .success (some [rawX]) else .failure)).getLast?
      = some SSEEvent.done ∧
    (searchBranch "json" emptyCache 0 "test" siteB .failure).events = [] := by
  have h := streamSearch_terminal_and_event_bounds "json" emptyCache 0 "test"
    [siteA, siteB] (fun s => if s.key = "siteA" then .success (some [rawX]) else .failure)
  refine ⟨h.2.2.1, ?_⟩
  have h6 := h.2.2.2.2.2 siteB (by decide) (by decide) (by decide)
  rw [show (if siteB.key = "siteA" then FetchOutcome.success (some [rawX])
      else FetchOutcome.failure) = FetchOutcome.failure from by decide] at h6
  exact h6

/-- C3: when the (default json-backed) search cache holds an unexpired
entry with a non-empty list under `site.key ++ "_" ++ keyword`, the
streaming branch never calls upstream, writes nothing back, and emits the
cached list decorated with the site's key and name as a single frame —
whatever the upstream would have answered. -/
theorem streamSearch_cache_hit_skips_upstream (cache : CacheState CVal)
    (now : Nat) (keyword : String) (site : Site) (outcome : FetchOutcome)
    (l : List Item) (e : Nat)
    (hstore : cache.searchCache (streamSearchCacheKey site keyword)
      = some ⟨CVal.searchVal l, e⟩)
    (hfresh : now < e) (hne : l ≠ []) :
    (searchBranch "json" cache now keyword site outcome).upstreamCalled = false ∧
    (searchBranch "json" cache now keyword site outcome).events
      = [l.map (decorate site)] ∧
    (searchBranch "json" cache now keyword site outcome).cacheWrite = none := by
  have hget : CacheManager.get "json" cache "search" (streamSearchCacheKey site keyword) now
      = some (.plain (CVal.searchVal l)) := by
    unfold CacheManager.get CacheState.lookup
    simp [hstore, hfresh]
  have hcl : cachedList (CacheManager.get "json" cache "search"
      (streamSearchCacheKey site keyword) now) = some l := by
    rw [hget]; rfl
  unfold searchBranch
  dsimp only
  rw [hcl]
  have hpos : 0 < (l.map (decorate site)).length := by
    rw [List.length_map]
    exact List.length_pos.mpr hne
  simp [hpos, hne]

/-- C3 witness: seed the cache with `(search, "siteA_batman")`, then search
"batman" on siteA with a failing upstream; the branch still hits. -/
theorem streamSearch_cache_hit_skips_upstream_witness :
    (searchBranch "json"
        (CacheManager.set "json" emptyCache "search" "siteA_batman"
          (CVal.searchVal [mapStreamItem siteA rawX]) 600 0)
        1000 "batman" siteA .failure).upstreamCalled = false ∧
    (searchBranch "json"
        (CacheManager.set "json" emptyCache "search" "siteA_batman"
          (CVal.searchVal [mapStreamItem siteA rawX]) 600 0)
        1000 "batman" siteA .failure).events
      = [[mapStreamItem siteA rawX].map (decorate siteA)] := by
  have h := streamSearch_cache_hit_skips_upstream
    (CacheManager.set "json" emptyCache "search" "siteA_batman"
      (CVal.searchVal [mapStreamItem siteA rawX]) 600 0)
    1000 "batman" siteA .failure [mapStreamItem siteA rawX] 600000
    (by decide) (by decide) (by decide)
  exact ⟨h.1, h.2.1⟩

/-- C7: on a cache miss with a successful upstream fetch, the branch
always writes the mapped list to the search cache with a 600 second TTL —
also when that list is empty — and emits a data frame exactly when the
list is non-empty. -/
theorem streamSearch_success_caches_even_empty (ctype : String)
    (cache : CacheState CVal) (now : Nat) (keyword : String) (site : Site)
    (dataList : Option (List RawItem))
    (hmiss : cachedList (CacheManager.get ctype cache "search"
      (streamSearchCacheKey site keyword) now) = none) :
    (searchBranch ctype cache now keyword site (.success dataList)).upstreamCalled = true ∧
    (searchBranch ctype cache now keyword site (.success dataList)).cacheWrite
      = some (streamSearchCacheKey site keyword,
          CVal.searchVal (streamMappedList site dataList), 600) ∧
    (searchBranch ctype cache now keyword site (.success dataList)).newCache
      = CacheManager.set ctype cache "search" (streamSearchCacheKey site keyword)
          (CVal.searchVal (streamMappedList site dataList)) 600 now ∧
    (streamMappedList site dataList = [] →
      (searchBranch ctype cache now keyword site (.success dataList)).events = []) ∧
    (streamMappedList site dataList ≠ [] →
      (searchBranch ctype cache now keyword site (.success dataList)).events
        = [streamMappedList site dataList]) := by
  unfold searchBranch
  dsimp only
  rw [hmiss]
  refine ⟨rfl, rfl, rfl, ?_, ?_⟩
  · intro h
    simp [h]
  · intro h
    have hpos : 0 < (streamMappedList site dataList).length := List.length_pos.mpr h
    simp [hpos]

/-- C7 witness: an empty upstream list is cached (TTL 600) with no frame
emitted; a one-element list is cached and emitted. -/
theorem streamSearch_success_caches_even_empty_witness :
    (searchBranch "json" emptyCache 0 "test" siteA (.success (some []))).cacheWrite
      = some (streamSearchCacheKey siteA "test", CVal.searchVal [], 600) ∧
    (searchBranch "json" emptyCache 0 "test" siteA (.success (some []))).events = [] ∧
    (searchBranch "json" emptyCache 0 "test" siteA (.success (some [rawX]))).events
      = [streamMappedList siteA (some [rawX])] := by
  have h1 := streamSearch_success_caches_even_empty "json" emptyCache 0 "test" siteA
    (some []) (by decide)
  have h2 := streamSearch_success_caches_even_empty "json" emptyCache 0 "test" siteA
    (some [rawX]) (by decide)
  exact ⟨h1.2.1, h1.2.2.2.1 (by decide), h2.2.2.2.2 (by decide)⟩

/-- C9 counterexample: a GET search with a keyword and `stream=false` is
answered by a bare `res.json({error})` — Express's default 200 status —
not by 4xx-equivalent signaling, refuting the claim at this input (the
no-work half of the claim does hold, see the amended theorem). -/
theorem getSearch_nonstream_returns_200 :
    (getSearchHandler "json" emptyCache 0 (some "batman") (some "false") [siteA]
        (fun _ => .failure)).response
      = SearchResponse.okJson "Use stream=true for GET requests" ∧
    SearchResponse.isClientError
        (getSearchHandler "json" emptyCache 0 (some "batman") (some "false") [siteA]
          (fun _ => .failure)).response
      = false := by
  constructor <;> decide

/-- C9 amended: a GET search with a non-empty keyword and `stream` other
than `'true'` is answered with the JSON error body `Use stream=true for
GET requests` (under Express's default 200 status, not 4xx), and performs
no per-source cache lookup and no upstream fetch. -/
theorem getSearch_nonstream_rejected_no_work (ctype : String)
    (cache : CacheState CVal) (now : Nat) (kw : String)
    (streamParam : Option String) (sites : List Site)
    (outcomes : Site → FetchOutcome) (hkw : kw ≠ "")
    (hstream : streamParam ≠ some "true") :
    (getSearchHandler ctype cache now (some kw) streamParam sites outcomes).response
      = SearchResponse.okJson "Use stream=true for GET requests" ∧
    (getSearchHandler ctype cache now (some kw) streamParam sites outcomes).searchCacheReads
      = [] ∧
    (getSearchHandler ctype cache now (some kw) streamParam sites outcomes).upstreamCalls
      = [] := by
  have h1 : ¬ ((some kw : Option String) = none ∨ (some kw : Option String) = some "") := by
    simp [hkw]
  unfold getSearchHandler
  rw [if_neg h1]
  dsimp only
  rw [if_pos hstream]
  exact ⟨rfl, rfl, rfl⟩

/-- C9 witness for the amended theorem at a concrete input. -/
theorem getSearch_nonstream_rejected_no_work_witness :
    (getSearchHandler "json" emptyCache 0 (some "spiderman") (some "0") [siteA, siteB]
        (fun _ => .failure)).response
      = SearchResponse.okJson "Use stream=true for GET requests" ∧
    (getSearchHandler "json" emptyCache 0 (some "spiderman") (some "0") [siteA, siteB]
        (fun _ => .failure)).upstreamCalls = [] := by
  have h := getSearch_nonstream_rejected_no_work "json" emptyCache 0 "spiderman"
    (some "0") [siteA, siteB] (fun _ => .failure) (by decide) (by decide)
  exact ⟨h.1, h.2.2⟩

/-- C10: both search endpoints build the same key in the same `search`
category — `streamSearchCacheKey site kw = postSearchCacheKey site.key kw`
— so an unexpired entry written by the POST handler is hit (no upstream
call) by the streaming branch, and an entry written by the streaming
branch is hit by the POST handler and returned as the POST response, even
though the stored field subsets differ. -/
theorem search_cache_key_interop (cache : CacheState CVal) (now now2 : Nat)
    (keyword : String) (site : Site) (dl : List RawItem) (outcome : FetchOutcome)
    (hfresh : now2 < now + 600 * 1000) :
    streamSearchCacheKey site keyword = postSearchCacheKey site.key keyword ∧
    (CacheManager.get "json" cache "search" (postSearchCacheKey site.key keyword) now = none →
      (searchBranch "json"
          (postSearchHandler "json" cache now keyword site.key [site] (.success (some dl))).newCache
          now2 keyword site outcome).upstreamCalled = false) ∧
    (cachedList (CacheManager.get "json" cache "search"
        (streamSearchCacheKey site keyword) now) = none →
      (postSearchHandler "json"
          (searchBranch "json" cache now keyword site (.success (some dl))).newCache
          now2 keyword site.key [site] outcome).upstreamCalled = false ∧
      (postSearchHandler "json"
          (searchBranch "json" cache now keyword site (.success (some dl))).newCache
          now2 keyword site.key [site] outcome).response
        = .cachedVal (.plain (CVal.searchVal (dl.map (mapStreamItem site))))) := by
  have hkey : streamSearchCacheKey site keyword = postSearchCacheKey site.key keyword := rfl
  have hfind : [site].find? (fun s => s.key = site.key) = some site := by
    simp [List.find?]
  refine ⟨hkey, ?_, ?_⟩
  · intro hmiss
    have hpost : (postSearchHandler "json" cache now keyword site.key [site]
        (.success (some dl))).newCache
        = CacheManager.set "json" cache "search" (postSearchCacheKey site.key keyword)
            (CVal.searchVal (postMappedList (some dl))) 600 now := by
      unfold postSearchHandler
      rw [hfind]
      dsimp only
      rw [hmiss]
    rw [hpost]
    have hget := CacheManager.get_set_json cache "search"
      (postSearchCacheKey site.key keyword) (CVal.searchVal (postMappedList (some dl)))
      600 now now2 hfresh
    have hcl : cachedList (CacheManager.get "json"
        (CacheManager.set "json" cache "search" (postSearchCacheKey site.key keyword)
          (CVal.searchVal (postMappedList (some dl))) 600 now)
        "search" (streamSearchCacheKey site keyword) now2)
        = some (postMappedList (some dl)) := by
      rw [hkey, hget]; rfl
    unfold searchBranch
    dsimp only
    rw [hcl]
  · intro hmiss
    have hbr : (searchBranch "json" cache now keyword site (.success (some dl))).newCache
        = CacheManager.set "json" cache "search" (streamSearchCacheKey site keyword)
            (CVal.searchVal (streamMappedList site (some dl))) 600 now := by
      unfold searchBranch
      dsimp only
      rw [hmiss]
    have hget := CacheManager.get_set_json cache "search"
      (streamSearchCacheKey site keyword) (CVal.searchVal (streamMappedList site (some dl)))
      600 now now2 hfresh
    constructor
    · unfold postSearchHandler
      rw [hfind]
      dsimp only
      rw [hbr, ← hkey, hget]
    · unfold postSearchHandler
      rw [hfind]
      dsimp only
      rw [hbr, ← hkey, hget]
      rfl

/-- C10 witness: with an empty starting cache, a POST write for
`("siteA","batman")` is hit by the streaming branch, and vice versa. -/
theorem search_cache_key_interop_witness :
    streamSearchCacheKey siteA "batman" = postSearchCacheKey siteA.key "batman" ∧
    (searchBranch "json"
        (postSearchHandler "json" emptyCache 0 "batman" siteA.key [siteA]
          (.success (some [rawX]))).newCache
        1000 "batman" siteA .failure).upstreamCalled = false ∧
    (postSearchHandler "json"
        (searchBranch "json" emptyCache 0 "batman" siteA (.success (some [rawX]))).newCache
        1000 "batman" siteA.key [siteA] .failure).response
      = .cachedVal (.plain (CVal.searchVal ([rawX].map (mapStreamItem siteA)))) := by
  have h := search_cache_key_interop emptyCache 0 1000 "batman" siteA [rawX] .failure
    (by decide)
  exact ⟨h.1, h.2.1 (by decide), (h.2.2 (by decide)).2⟩

/-! ## Detail resolvers (`GET /api/detail` lines 333-370, `POST /api/detail` lines 372-406)

Both handlers: find the site by key, compute `siteKey + "_detail_" + id`,
hit check is plain JS truthiness `if (cached)` (any value `get` returns is
truthy), on miss fetch `{ac:'detail', ids:id}`.  The GET version responds
`{list:[x]}`, the POST version responds the bare record.  A response
payload is either the value the cache handed back or, on a fresh fetch,
the first upstream list element — the fresh case is encoded as
`.plain (.detailVal d)`, the same JSON shape a json-backend hit of that
record would have. -/

/-- `const cacheKey = `${siteKey}_detail_${id}`` (lines 342 and 380). -/
def detailCacheKey (siteKey id : String) : String :=
  siteKey ++ "_detail_" ++ id

inductive GetDetailResponse where
  | siteNotFound
  | okList (l : List (CacheGetResult CVal))
  | notFound
  | fetchFailed
  deriving DecidableEq

structure GetDetailResult where
  response : GetDetailResponse
  newCache : CacheState CVal
  upstreamCalled : Bool

def getDetailHandler (ctype : String) (cache : CacheState CVal) (now : Nat)
    (id siteKey : String) (sites : List Site) (outcome : FetchOutcome) :
    GetDetailResult :=
  match sites.find? (fun s => s.key = siteKey) with
  | none => ⟨.siteNotFound, cache, false⟩
  | some _site =>
    let cacheKey := detailCacheKey siteKey id
    match CacheManager.get ctype cache "detail" cacheKey now with
    | some cached => ⟨.okList [cached], cache, false⟩
    | none =>
      match outcome with
      | .success dataList =>
          match dataList with
          | some (d :: _) =>
              ⟨.okList [.plain (.detailVal d)],
               CacheManager.set ctype cache "detail" cacheKey (.detailVal d) 3600 now,
               true⟩
          | _ => ⟨.notFound, cache, true⟩
      | .failure => ⟨.fetchFailed, cache, true⟩

inductive PostDetailResponse where
  | siteNotFound
  | okVal (v : CacheGetResult CVal)
  | notFound
  | fetchFailed
  deriving DecidableEq

structure PostDetailResult where
  response : PostDetailResponse
  newCache : CacheState CVal
  upstreamCalled : Bool

def postDetailHandler (ctype : String) (cache : CacheState CVal) (now : Nat)
    (id siteKey : String) (sites : List Site) (outcome : FetchOutcome) :
    PostDetailResult :=
  match sites.find? (fun s => s.key = siteKey) with
  | none => ⟨.siteNotFound, cache, false⟩
  | some _site =>
    let cacheKey := detailCacheKey siteKey id
    match CacheManager.get ctype cache "detail" cacheKey now with
    | some cached => ⟨.okVal cached, cache, false⟩
    | none =>
      match outcome with
      | .success dataList =>
          match dataList with
          | some (d :: _) =>
              ⟨.okVal (.plain (.detailVal d)),
               CacheManager.set ctype cache "detail" cacheKey (.detailVal d) 3600 now,
               true⟩
          | _ => ⟨.notFound, cache, true⟩
      | .failure => ⟨.fetchFailed, cache, true⟩

/-- On a detail-cache miss, both resolvers always reach the upstream call,
whatever it then answers. -/
theorem detail_miss_calls_upstream (cache : CacheState CVal) (now : Nat)
    (id siteKey : String) (sites : List Site) (site : Site) (outcome : FetchOutcome)
    (hfind : sites.find? (fun s => s.key = siteKey) = some site)
    (hmiss : CacheManager.get "json" cache "detail" (detailCacheKey siteKey id) now = none) :
    (getDetailHandler "json" cache now id siteKey sites outcome).upstreamCalled = true ∧
    (postDetailHandler "json" cache now id siteKey sites outcome).upstreamCalled = true := by
  unfold getDetailHandler postDetailHandler
  rw [hfind]
  dsimp only
  rw [hmiss]
  cases outcome with
  | success dataList =>
    cases dataList with
    | none => exact ⟨rfl, rfl⟩
    | some l =>
      cases l with
      | nil => exact ⟨rfl, rfl⟩
      | cons d t => exact ⟨rfl, rfl⟩
  | failure => exact ⟨rfl, rfl⟩

/-- C8: detail lookups under the default json backend.  (a) On an
unexpired cache hit both resolvers return the cached record with no
upstream call and no cache write.  (b) On a miss answered with a
non-empty list, the first element is cached for 3600 seconds and
returned.  (c) On a miss answered with an absent or empty list, the
response is not-found, nothing is written (no negative caching), and a
repeated lookup against the resulting state calls upstream again. -/
theorem detail_resolver_cache_semantics (cache : CacheState CVal) (now : Nat)
    (id siteKey : String) (sites : List Site) (site : Site)
    (hfind : sites.find? (fun s => s.key = siteKey) = some site) :
    (∀ v e, cache.detailCache (detailCacheKey siteKey id) = some ⟨v, e⟩ → now < e →
      ∀ outcome,
        (getDetailHandler "json" cache now id siteKey sites outcome).response
          = .okList [.plain v] ∧
        (getDetailHandler "json" cache now id siteKey sites outcome).upstreamCalled = false ∧
        (getDetailHandler "json" cache now id siteKey sites outcome).newCache = cache ∧
        (postDetailHandler "json" cache now id siteKey sites outcome).response
          = .okVal (.plain v) ∧
        (postDetailHandler "json" cache now id siteKey sites outcome).upstreamCalled = false) ∧
    (CacheManager.get "json" cache "detail" (detailCacheKey siteKey id) now = none →
      (∀ d rest,
        (getDetailHandler "json" cache now id siteKey sites
            (.success (some (d :: rest)))).response = .okList [.plain (.detailVal d)] ∧
        (getDetailHandler "json" cache now id siteKey sites
            (.success (some (d :: rest)))).newCache
          = CacheManager.set "json" cache "detail" (detailCacheKey siteKey id)
              (.detailVal d) 3600 now ∧
        (postDetailHandler "json" cache now id siteKey sites
            (.success (some (d :: rest)))).response = .okVal (.plain (.detailVal d))) ∧
      (∀ dataList, dataList = none ∨ dataList = some ([] : List RawItem) →
        (getDetailHandler "json" cache now id siteKey sites (.success dataList)).response
          = .notFound ∧
        (getDetailHandler "json" cache now id siteKey sites (.success dataList)).newCache
          = cache ∧
        (postDetailHandler "json" cache now id siteKey sites (.success dataList)).response
          = .notFound ∧
        ∀ outcome2,
          (getDetailHandler "json"
              (getDetailHandler "json" cache now id siteKey sites (.success dataList)).newCache
              now id siteKey sites outcome2).upstreamCalled = true)) := by
  constructor
  · intro v e hstore hf outcome
    have hget : CacheManager.get "json" cache "detail" (detailCacheKey siteKey id) now
        = some (.plain v) := by
      unfold CacheManager.get CacheState.lookup
      simp [hstore, hf]
    unfold getDetailHandler postDetailHandler
    rw [hfind]
    dsimp only
    rw [hget]
    exact ⟨rfl, rfl, rfl, rfl, rfl⟩
  · intro hmiss
    constructor
    · intro d rest
      unfold getDetailHandler postDetailHandler
      rw [hfind]
      dsimp only
      rw [hmiss]
      exact ⟨rfl, rfl, rfl⟩
    · intro dataList hdl
      have hnc : (getDetailHandler "json" cache now id siteKey sites
          (.success dataList)).newCache = cache := by
        unfold getDetailHandler
        rw [hfind]
        dsimp only
        rw [hmiss]
        rcases hdl with h | h <;> rw [h]
      refine ⟨?_, hnc, ?_, ?_⟩
      · unfold getDetailHandler
        rw [hfind]
        dsimp only
        rw [hmiss]
        rcases hdl with h | h <;> rw [h]
      · unfold postDetailHandler
        rw [hfind]
        dsimp only
        rw [hmiss]
        rcases hdl with h | h <;> rw [h]
      · intro outcome2
        rw [hnc]
        exact (detail_miss_calls_upstream cache now id siteKey sites site outcome2
          hfind hmiss).1

/-- C8 witness: with an empty cache, a lookup on siteA for id 42 that
upstream answers with `{list:[rawX]}` caches rawX and returns it; one that
upstream answers with `{list:[]}` is not-found and a repeat still fetches. -/
theorem detail_resolver_cache_semantics_witness :
    (getDetailHandler "json" emptyCache 0 "42" "siteA" [siteA]
        (.success (some [rawX]))).response
      = .okList [.plain (.detailVal rawX)] ∧
    (getDetailHandler "json" emptyCache 0 "42" "siteA" [siteA]
        (.success (some []))).response = .notFound ∧
    (getDetailHandler "json"
        (getDetailHandler "json" emptyCache 0 "42" "siteA" [siteA]
          (.success (some []))).newCache
        0 "42" "siteA" [siteA] .failure).upstreamCalled = true := by
  have h := detail_resolver_cache_semantics emptyCache 0 "42" "siteA" [siteA] siteA
    (by decide)
  have hb := (h.2 (by decide)).1 rawX []
  have hc := (h.2 (by decide)).2 (some []) (Or.inr rfl)
  exact ⟨hb.1, hc.1, hc.2.2.2 .failure⟩

/-! ## TMDB image cache (`GET /api/tmdb-image/:size/:filename`, lines 408-460)

Paths are modelled as lists of components; `IMAGE_CACHE_DIR` is the
abstract root `imageRoot`.  `path.join(IMAGE_CACHE_DIR, size, filename)`
concatenates the segments and normalizes `.` and `..` (for a path below
the root, `..` removes the previous component), which `joinPath` performs
with `normStep`; an allow-listed `filename` contains no `/`, so it is a
single segment.  The filesystem is a map from derived paths to file byte
sizes; mtime/atime are not represented (no claim here depends on the
`utimesSync` refresh).  An `ImgOutcome` summarizes the
fetch-and-stream-to-disk step: `fetchOk n` is a completed download of `n`
bytes, `fetchFail written` a failure that left `written` bytes at the
destination (`none` when the file was never created). -/

def allowSizes : List String :=
  ["w300", "w342", "w500", "w780", "w1280", "original"]

/-- The allow-list test `/^[a-zA-Z0-9_\-\.]+$/.test(filename)` (line 414). -/
def filenameAllowed (s : String) : Bool :=
  s.length > 0 && s.data.all (fun c => c.isAlphanum || c = '_' || c = '-' || c = '.')

def imageRoot : List String := ["public", "cache", "images"]

def normStep (acc : List String) (comp : String) : List String :=
  if comp = "." then acc
  else if comp = ".." then acc.dropLast
  else acc ++ [comp]

def joinPath (base : List String) (comps : List String) : List String :=
  comps.foldl normStep base

structure FSState where
  files : List String → Option Nat

def FSState.update (fsS : FSState) (p : List String) (v : Option Nat) : FSState :=
  ⟨fun q => if q = p then v else fsS.files q⟩

inductive ImgOutcome where
  | fetchOk (n : Nat)
  | fetchFail (written : Option Nat)
  deriving DecidableEq

inductive ImageResponse where
  | invalidParams
  | sendFile (p : List String)
  | notFound
  deriving DecidableEq

structure ImageResult where
  fs : FSState
  response : ImageResponse
  fetched : Bool

/-- The miss path (lines 429-459): fetch and stream to `localPath`; on
failure, `if (fs.existsSync(localPath)) fs.unlinkSync(localPath)` before
the 404. -/
def imageFetchPath (fsS : FSState) (localPath : List String)
    (outcome : ImgOutcome) : ImageResult :=
  match outcome with
  | .fetchOk n => ⟨fsS.update localPath (some n), .sendFile localPath, true⟩
  | .fetchFail written =>
    let fs1 := match written with
      | some m => fsS.update localPath (some m)
      | none => fsS
    let fs2 := if (fs1.files localPath).isSome then fs1.update localPath none else fs1
    ⟨fs2, .notFound, true⟩

/-- `GET /api/tmdb-image/:size/:filename` (lines 409-460): validate, then
serve from disk when the file exists with size > 0, else fetch. -/
def imageHandler (fsS : FSState) (sz filename : String) (outcome : ImgOutcome) :
    ImageResult :=
  if sz ∉ allowSizes ∨ ¬ filenameAllowed filename then
    ⟨fsS, .invalidParams, false⟩
  else
    let localPath := joinPath imageRoot [sz, filename]
    match fsS.files localPath with
    | some n =>
      if n > 0 then ⟨fsS, .sendFile localPath, false⟩
      else imageFetchPath fsS localPath outcome
    | none => imageFetchPath fsS localPath outcome

/-- C5: an out-of-set size or a filename failing the allow-list pattern is
rejected as a client error with the filesystem untouched, never consulted
and no fetch issued; and for every accepted pair the derived path stays
below the image cache root (even `"."` and `".."`, which the pattern
admits, normalize to the size directory or the root itself, never
outside). -/
theorem tmdb_image_validation_no_traversal (sz filename : String)
    (fsS : FSState) (outcome : ImgOutcome) :
    ((sz ∉ allowSizes ∨ ¬ filenameAllowed filename) →
      imageHandler fsS sz filename outcome = ⟨fsS, .invalidParams, false⟩) ∧
    (sz ∈ allowSizes → filenameAllowed filename = true →
      ∃ rest, joinPath imageRoot [sz, filename] = imageRoot ++ rest) := by
  constructor
  · intro hbad
    unfold imageHandler
    rw [if_pos hbad]
  · intro hsz _hfn
    have hdots : sz ≠ "." ∧ sz ≠ ".." := by
      have : ∀ s ∈ allowSizes, s ≠ "." ∧ s ≠ ".." := by decide
      exact this sz hsz
    have h1 : normStep imageRoot sz = imageRoot ++ [sz] := by
      unfold normStep
      rw [if_neg hdots.1, if_neg hdots.2]
    show ∃ rest, normStep (normStep imageRoot sz) filename = imageRoot ++ rest
    rw [h1]
    unfold normStep
    by_cases hd : filename = "."
    · rw [if_pos hd]
      exact ⟨[sz], rfl⟩
    · rw [if_neg hd]
      by_cases hdd : filename = ".."
      · rw [if_pos hdd, List.dropLast_concat]
        exact ⟨[], (List.append_nil imageRoot).symm⟩
      · rw [if_neg hdd]
        exact ⟨[sz, filename], by rw [List.append_assoc]; rfl⟩

/-- C5 witness: `size="w9999"` is rejected with nothing touched, and the
accepted pair `("w500","abc.jpg")` derives a path below the root. -/
theorem tmdb_image_validation_no_traversal_witness :
    imageHandler ⟨fun _ => none⟩ "w9999" "abc.jpg" (.fetchOk 7)
      = ⟨⟨fun _ => none⟩, .invalidParams, false⟩ ∧
    ∃ rest, joinPath imageRoot ["w500", "abc.jpg"] = imageRoot ++ rest := by
  constructor
  · exact (tmdb_image_validation_no_traversal "w9999" "abc.jpg" ⟨fun _ => none⟩
      (.fetchOk 7)).1 (by decide)
  · exact (tmdb_image_validation_no_traversal "w500" "abc.jpg" ⟨fun _ => none⟩
      (.fetchOk 7)).2 (by decide) (by decide)

/-- C6: on a miss (no file, or a zero-byte file, at the derived path), a
failed fetch/write leaves no file at the derived path when the 404 is
surfaced — whatever partial bytes were written first — and a zero-byte
file is never served as a hit: the handler goes to the fetch path. -/
theorem tmdb_image_partial_file_cleanup (fsS : FSState) (sz filename : String)
    (hsz : sz ∈ allowSizes) (hfn : filenameAllowed filename = true)
    (hmiss : ∀ n, fsS.files (joinPath imageRoot [sz, filename]) = some n → n = 0) :
    (∀ written,
      (imageHandler fsS sz filename (.fetchFail written)).fs.files
          (joinPath imageRoot [sz, filename]) = none ∧
      (imageHandler fsS sz filename (.fetchFail written)).response = .notFound ∧
      (imageHandler fsS sz filename (.fetchFail written)).fetched = true) ∧
    (∀ outcome, (imageHandler fsS sz filename outcome).fetched = true) := by
  have hval : ¬ (sz ∉ allowSizes ∨ ¬ filenameAllowed filename) := by
    push_neg
    exact ⟨hsz, hfn⟩
  have hred : ∀ outcome, imageHandler fsS sz filename outcome
      = imageFetchPath fsS (joinPath imageRoot [sz, filename]) outcome := by
    intro outcome
    unfold imageHandler
    rw [if_neg hval]
    dsimp only
    cases hf : fsS.files (joinPath imageRoot [sz, filename]) with
    | none => rfl
    | some n =>
      have h0 : n = 0 := hmiss n hf
      rw [h0]
      rfl
  constructor
  · intro written
    rw [hred]
    unfold imageFetchPath
    cases written with
    | none =>
      dsimp only
      cases hf : fsS.files (joinPath imageRoot [sz, filename]) with
      | none => simp [hf, FSState.update]
      | some n => simp [hf, FSState.update]
    | some m => simp [FSState.update]
  · intro outcome
    rw [hred]
    cases outcome <;> rfl

/-- C6 witness: a zero-byte file left at `images/w500/poster.jpg` is not
served; after a failed fetch that wrote 3 bytes, the partial file is gone
and the response is the 404. -/
theorem tmdb_image_partial_file_cleanup_witness :
    (imageHandler ⟨fun q => if q = joinPath imageRoot ["w500", "poster.jpg"]
        then some 0 else none⟩
      "w500" "poster.jpg" (.fetchFail (some 3))).fs.files
        (joinPath imageRoot ["w500", "poster.jpg"]) = none ∧
    (imageHandler ⟨fun q => if q = joinPath imageRoot ["w500", "poster.jpg"]
        then some 0 else none⟩
      "w500" "poster.jpg" (.fetchFail (some 3))).fetched = true := by
  have h := tmdb_image_partial_file_cleanup
    ⟨fun q => if q = joinPath imageRoot ["w500", "poster.jpg"] then some 0 else none⟩
    "w500" "poster.jpg" (by decide) (by decide)
    (by intro n hn; simp at hn; omega)
  exact ⟨(h.1 (some 3)).1, (h.1 (some 3)).2.2⟩

/-! ## Eviction sweep (`cleanCacheIfNeeded`, src/server.js lines 462-519)

The sweep body works on the snapshot `files` of `(path, size, mtime)`
tuples that `traverseDir` collects; it is modelled directly on that list
(all deletions assumed to succeed, as the claim's scenario requires).
`files.sort((a, b) => a.time - b.time)` is a stable ascending sort by
`time`, modelled by insertion sort (tie order among equal `mtime`s is not
specified by the claim).  The loop `if (deletedSize >= targetDelete)
break` with `targetDelete = totalSize - maxBytes * 0.9` is modelled in
exact integer arithmetic scaled by 10: `deletedSize >= totalSize - 0.9 *
maxBytes` iff `10*deletedSize + 9*maxBytes >= 10*totalSize`.  (JS computes
`0.9` as a binary double, `maxBytes*0.9 = 966367641.60000002...`; both
thresholds have the same integer solutions, since each sits strictly
between the same consecutive integers.) -/

structure CFile where
  path : String
  size : Nat
  time : Nat
  deriving DecidableEq

def timeLE (a b : CFile) : Prop := a.time ≤ b.time

instance : DecidableRel timeLE := fun a b => Nat.decLe a.time b.time

instance : IsTotal CFile timeLE := ⟨fun a b => Nat.le_total a.time b.time⟩

instance : IsTrans CFile timeLE := ⟨fun _ _ _ hab hbc => Nat.le_trans hab hbc⟩

/-- `files.sort((a, b) => a.time - b.time)` (line 501). -/
def sortByTime (files : List CFile) : List CFile :=
  List.insertionSort timeLE files

def totalSize (files : List CFile) : Nat := (files.map CFile.size).sum

def MAX_CACHE_SIZE_MB : Nat := 1024

def maxCacheBytes : Nat := MAX_CACHE_SIZE_MB * 1024 * 1024

/-- The deletion loop (lines 506-512) over the already-sorted list: break
before deleting once `deletedSize >= targetDelete`. -/
def takeDeletes (tot : Nat) : List CFile → Nat → List CFile
  | [], _ => []
  | f :: rest, deletedSize =>
    if 10 * deletedSize + 9 * maxCacheBytes ≥ 10 * tot then []
    else f :: takeDeletes tot rest (deletedSize + f.size)

/-- The files the sweep deletes (lines 499-514): nothing below the budget,
else the loop's prefix of the time-sorted list. -/
def cleanDeleted (files : List CFile) : List CFile :=
  if totalSize files > maxCacheBytes then
    takeDeletes (totalSize files) (sortByTime files) 0
  else []

/-- The files the sweep leaves behind. -/
def cleanKept (files : List CFile) : List CFile :=
  (sortByTime files).drop (cleanDeleted files).length

theorem totalSize_append (a b : List CFile) :
    totalSize (a ++ b) = totalSize a + totalSize b := by
  simp [totalSize]

theorem totalSize_perm {l1 l2 : List CFile} (h : l1.Perm l2) :
    totalSize l1 = totalSize l2 :=
  List.Perm.sum_eq (h.map CFile.size)

theorem takeDeletes_append_drop (tot : Nat) :
    ∀ (l : List CFile) (acc : Nat),
      takeDeletes tot l acc ++ l.drop (takeDeletes tot l acc).length = l := by
  intro l
  induction l with
  | nil => intro _; rfl
  | cons f rest ih =>
    intro acc
    unfold takeDeletes
    by_cases h : 10 * acc + 9 * maxCacheBytes ≥ 10 * tot
    · rw [if_pos h]; rfl
    · rw [if_neg h]
      simp only [List.length_cons, List.cons_append, List.drop_succ_cons]
      rw [ih (acc + f.size)]

theorem takeDeletes_prefix_sums (tot : Nat) :
    ∀ (l : List CFile) (acc i : Nat), i < (takeDeletes tot l acc).length →
      10 * (acc + totalSize ((takeDeletes tot l acc).take i)) + 9 * maxCacheBytes
        < 10 * tot := by
  intro l
  induction l with
  | nil => intro acc i hi; simp [takeDeletes] at hi
  | cons f rest ih =>
    intro acc i hi
    unfold takeDeletes at hi ⊢
    by_cases h : 10 * acc + 9 * maxCacheBytes ≥ 10 * tot
    · rw [if_pos h] at hi; simp at hi
    · rw [if_neg h] at hi ⊢
      cases i with
      | zero =>
        simp only [List.take_zero, totalSize, List.map_nil, List.sum_nil, Nat.add_zero]
        omega
      | succ j =>
        have hj : j < (takeDeletes tot rest (acc + f.size)).length := by
          simpa using hi
        have hrec := ih (acc + f.size) j hj
        simp only [List.take_succ_cons, totalSize, List.map_cons, List.sum_cons] at hrec ⊢
        omega

theorem takeDeletes_final (tot : Nat) :
    ∀ (l : List CFile) (acc : Nat),
      10 * (acc + totalSize (takeDeletes tot l acc)) + 9 * maxCacheBytes ≥ 10 * tot ∨
      takeDeletes tot l acc = l := by
  intro l
  induction l with
  | nil => intro _; exact Or.inr rfl
  | cons f rest ih =>
    intro acc
    unfold takeDeletes
    by_cases h : 10 * acc + 9 * maxCacheBytes ≥ 10 * tot
    · rw [if_pos h]
      left
      simp only [totalSize, List.map_nil, List.sum_nil, Nat.add_zero]
      omega
    · rw [if_neg h]
      rcases ih (acc + f.size) with hge | heq
      · left
        simp only [totalSize, List.map_cons, List.sum_cons] at hge ⊢
        omega
      · right
        rw [heq]

/-- C4 counterexample: two files of equal mtime 5, each 1 GiB, are both
deleted by the sweep; a deletion sequence with equal modification times is
not in strictly ascending mtime order, refuting the claim as stated at
this starting state (the budget hypothesis holds: total is 2 GiB). -/
theorem cleanCache_equal_mtime_not_strict :
    totalSize [⟨"a", 1073741824, 5⟩, ⟨"b", 1073741824, 5⟩] > maxCacheBytes ∧
    ¬ List.Pairwise (fun a b : CFile => a.time < b.time)
        (cleanDeleted [⟨"a", 1073741824, 5⟩, ⟨"b", 1073741824, 5⟩]) := by
  constructor <;> decide

/-- C4 amended: over the byte budget, the sweep deletes a prefix of the
time-sorted file list, so deletions are in non-decreasing (strictly
ascending whenever the mtimes are pairwise distinct) mtime order; before
each deletion the cumulative deleted size is still short of
`total - 0.9*budget` (it stops as soon as the target is reached); no
deleted file is newer than any survivor; and the remaining total is at
most the budget. -/
theorem cleanCache_sweep_correct (files : List CFile)
    (hover : totalSize files > maxCacheBytes) :
    List.Pairwise (fun a b : CFile => a.time ≤ b.time) (cleanDeleted files) ∧
    (List.Pairwise (fun a b : CFile => a.time ≠ b.time) files →
      List.Pairwise (fun a b : CFile => a.time < b.time) (cleanDeleted files)) ∧
    (∀ i < (cleanDeleted files).length,
      10 * totalSize ((cleanDeleted files).take i) + 9 * maxCacheBytes
        < 10 * totalSize files) ∧
    (10 * totalSize (cleanDeleted files) + 9 * maxCacheBytes ≥ 10 * totalSize files ∨
      cleanKept files = []) ∧
    (∀ x ∈ cleanDeleted files, ∀ y ∈ cleanKept files, x.time ≤ y.time) ∧
    totalSize (cleanKept files) ≤ maxCacheBytes := by
  have hdef : cleanDeleted files = takeDeletes (totalSize files) (sortByTime files) 0 := by
    unfold cleanDeleted
    rw [if_pos hover]
  have hkept : cleanKept files = (sortByTime files).drop (cleanDeleted files).length := rfl
  have happ : cleanDeleted files ++ cleanKept files = sortByTime files := by
    rw [hkept, hdef]
    exact takeDeletes_append_drop _ _ 0
  have hsorted : List.Pairwise timeLE (sortByTime files) :=
    List.sorted_insertionSort timeLE files
  have hpair : List.Pairwise timeLE (cleanDeleted files ++ cleanKept files) := by
    rw [happ]; exact hsorted
  have hsplit := List.pairwise_append.mp hpair
  have h4 : 10 * totalSize (cleanDeleted files) + 9 * maxCacheBytes
      ≥ 10 * totalSize files ∨ cleanKept files = [] := by
    rcases takeDeletes_final (totalSize files) (sortByTime files) 0 with h | h
    · left
      rw [hdef]
      simpa using h
    · right
      rw [hkept, hdef, h]
      exact List.drop_length _
  refine ⟨hsplit.1, ?_, ?_, h4, hsplit.2.2, ?_⟩
  · intro hne
    have hne2 : List.Pairwise (fun a b : CFile => a.time ≠ b.time) (sortByTime files) :=
      (List.Perm.pairwise_iff (fun h => h.symm)
        (List.perm_insertionSort timeLE files)).mpr hne
    have hne3 : List.Pairwise (fun a b : CFile => a.time ≠ b.time)
        (cleanDeleted files ++ cleanKept files) := by
      rw [happ]; exact hne2
    have hcomb := (List.pairwise_append.mp hne3).1.and hsplit.1
    exact hcomb.imp (fun h => Nat.lt_of_le_of_ne h.2 h.1)
  · intro i hi
    have := takeDeletes_prefix_sums (totalSize files) (sortByTime files) 0 i (hdef ▸ hi)
    rw [hdef]
    simpa using this
  · have hsum : totalSize (cleanDeleted files) + totalSize (cleanKept files)
        = totalSize files := by
      have h1 : totalSize (cleanDeleted files ++ cleanKept files)
          = totalSize files := by
        rw [happ]
        exact totalSize_perm (List.perm_insertionSort timeLE files)
      rw [totalSize_append] at h1
      exact h1
    rcases h4 with hge | hnil
    · omega
    · rw [hnil]
      simp [totalSize]

/-- C4 witness for the amended theorem: two 1 GiB files with distinct
mtimes; the sweep's survivors fit the budget and deletions are ordered. -/
theorem cleanCache_sweep_correct_witness :
    totalSize (cleanKept [⟨"old", 1073741824, 1⟩, ⟨"new", 1073741824, 2⟩])
      ≤ maxCacheBytes ∧
    List.Pairwise (fun a b : CFile => a.time ≤ b.time)
      (cleanDeleted [⟨"old", 1073741824, 1⟩, ⟨"new", 1073741824, 2⟩]) := by
  have h := cleanCache_sweep_correct
    [⟨"old", 1073741824, 1⟩, ⟨"new", 1073741824, 2⟩] (by decide)
  exact ⟨h.2.2.2.2.2, h.1⟩
